import Mathlib

/-!
Verification development for the pg-server postgres wire-protocol codecs.

Modelling conventions (shallow embedding of the TypeScript source):

* Wire bytes are `Nat` values (0..255); buffers are `List Nat`.
* JavaScript strings are identified with their UTF-8 byte sequences
  (`List Nat`).  All protocol strings exchanged here are ASCII, where the
  identification is exact; `s[0]` is modelled as the first byte.
* Node `Buffer` reads that throw on an out-of-range offset
  (`readInt16BE`, `readInt32BE`, `readUInt32BE`) are modelled as `none`;
  `Buffer.prototype.slice` / `toString` clamp at the end of the buffer,
  which `List.take` models exactly.  `reader.cstring` scans for a NUL
  terminator and in Node never terminates when none exists before the end
  of the buffer; the model returns `none` in that situation.
* The decoders keep a rolling buffer with an offset and a length; the
  capacity-doubling and compaction moves of `mergeBuffer` do not change
  the content of the live window, so the state is modelled as the live
  window `pending : List Nat` and `parse chunk` operates on
  `pending ++ chunk`.
* A thrown exception is modelled as `Except.error` (command side) or
  `Option.none` (response side): either way the session is torn down and
  decoding stops.
-/

/-! ## Byte-reader primitives (buffer-reader.ts, class BufferReader) -/

/-- Big-endian unsigned read of `n` bytes at `off`; fails when the read
would pass the end of the buffer (Node `readUIntBE` family throws). -/
def uintBE (buf : List Nat) (n off : Nat) : Option (Nat × Nat) :=
  if off + n ≤ buf.length then
    some (((buf.drop off).take n).foldl (fun a b => a * 256 + b) 0, off + n)
  else none

/-- Two-complement reinterpretation of an unsigned `w`-bit value. -/
def toSigned (w : Nat) (v : Nat) : Int :=
  if v < 2 ^ (w - 1) then (v : Int) else (v : Int) - 2 ^ w

/-- BufferReader.int16 (signed big-endian). -/
def int16R (buf : List Nat) (off : Nat) : Option (Int × Nat) :=
  (uintBE buf 2 off).map fun p => (toSigned 16 p.1, p.2)

/-- BufferReader.uint16. -/
def uint16R (buf : List Nat) (off : Nat) : Option (Nat × Nat) :=
  uintBE buf 2 off

/-- BufferReader.int32 (signed big-endian). -/
def int32R (buf : List Nat) (off : Nat) : Option (Int × Nat) :=
  (uintBE buf 4 off).map fun p => (toSigned 32 p.1, p.2)

/-- BufferReader.uint32. -/
def uint32R (buf : List Nat) (off : Nat) : Option (Nat × Nat) :=
  uintBE buf 4 off

/-- BufferReader.byte (`this.buffer[this.offset]`); Node yields `undefined`
out of range, modelled as failure. -/
def byteR (buf : List Nat) (off : Nat) : Option (Nat × Nat) :=
  (buf[off]?).map fun b => (b, off + 1)

/-- BufferReader.string(len): `buffer.toString(enc, off, off+len)` with the
cursor advanced by `len` (even when the slice clamps).  A negative target
offset is modelled as failure (Node would fail on the next bounded read). -/
def stringR (buf : List Nat) (len : Int) (off : Nat) : Option (List Nat × Nat) :=
  let tgt : Int := (off : Int) + len
  if tgt < 0 then none
  else some ((buf.drop off).take len.toNat, tgt.toNat)

/-- BufferReader.bytes(len): `buffer.slice(off, off+len)`, same cursor
behaviour as `string` (slices clamp; the cursor can move backwards when
`len` is negative). -/
def bytesR (buf : List Nat) (len : Int) (off : Nat) : Option (List Nat × Nat) :=
  let tgt : Int := (off : Int) + len
  if tgt < 0 then none
  else some ((buf.drop off).take len.toNat, tgt.toNat)

/-- BufferReader.cstring: scan for a NUL, return the preceding bytes and
advance past the terminator; no NUL before the end of the buffer is a
failure (Node scans forever). -/
def cstringR (buf : List Nat) (off : Nat) : Option (List Nat × Nat) :=
  match (buf.drop off).findIdx? (· == 0) with
  | some i => some ((buf.drop off).take i, off + i + 1)
  | none => none

/-! ## Message header -/

/-- The `[code][4-byte BE length]` header peeked by both decoders:
`code = buffer[offset]`, `length = buffer.readUInt32BE(offset+1)`.
`none` when fewer than 5 bytes are available. -/
def hdr : List Nat → Option (Nat × Nat)
  | c :: a :: b :: d :: e :: _ => some (c, ((a * 256 + b) * 256 + d) * 256 + e)
  | _ => none

/-! ## Frontend command messages (commands.ts) -/

/-- A Bind parameter value as produced by `CommandParser.valuesRead`
(`any[]` in the source: a string, `null`, a `Buffer`, or an unassigned
slot when the `i16` kind is neither 0 nor 1). -/
inductive PVal where
  | str (s : List Nat)
  | null
  | bytes (b : List Nat)
  | undef
deriving DecidableEq

/-- The `DbCommand` tagged union of commands.ts.  Code-only commands keep
their wire code (flush `0x48`, sync `0x53`, end `0x58`, copyDone `0x63`).
`portalOp` keeps the wire code (describe `0x44` / close `0x43`), the
portal-type byte (`P`/`S`) and the optional name. -/
inductive DbCommand where
  | init (major minor : Int) (options : List (List Nat × List Nat))
  | startupMd5 (md5 : List Nat)
  | query (q : List Nat)
  | parse (queryName query : List Nat) (parameters : List Int)
  | bind (portal statement : List Nat) (values : List PVal) (binary : Bool)
  | portalOp (code : Nat) (portalType : Nat) (name : Option (List Nat))
  | execute (portal : List Nat) (rows : Nat)
  | codeOnly (code : Nat)
  | copyFail (message : List Nat)
  | copyFromChunk (buffer : List Nat)
deriving DecidableEq

def DbCommand.isInit : DbCommand → Bool
  | .init _ _ _ => true
  | _ => false

/-! ## Backend response messages (responses.ts) -/

/-- The record built by `DbResponseParser.parseErrorMessage` from the
single-letter notice fields. -/
structure NoticeFields where
  message : Option (List Nat) := none
  severity : Option (List Nat) := none
  code : Option (List Nat) := none
  detail : Option (List Nat) := none
  hint : Option (List Nat) := none
  position : Option (List Nat) := none
  internalPosition : Option (List Nat) := none
  internalQuery : Option (List Nat) := none
  whereF : Option (List Nat) := none
  schema : Option (List Nat) := none
  table : Option (List Nat) := none
  column : Option (List Nat) := none
  dataType : Option (List Nat) := none
  constraint : Option (List Nat) := none
  file : Option (List Nat) := none
  line : Option (List Nat) := none
  routine : Option (List Nat) := none
deriving DecidableEq

/-- One field description of a RowDescription message. -/
structure FieldDesc where
  name : List Nat
  tableID : Int
  columnID : Int
  dataTypeID : Int
  dataTypeSize : Int
  dataTypeModifier : Int
  modeText : Bool
deriving DecidableEq

/-- The `DbResponse` tagged union of responses.ts.  `codeOnly` carries the
wire code (ParseComplete `0x31`, BindComplete `0x32`, CloseComplete `0x33`,
NoData `0x6e`, PortalSuspended `0x73`, CopyDone `0x63`,
ReplicationStart `0x57`, EmptyQuery `0x49`); `noticeOrError` carries
`isError = true` for ErrorMessage (`0x45`) and `false` for
NoticeMessage (`0x4e`); `copyInOut` carries `isIn = true` for CopyIn. -/
inductive DbResponse where
  | codeOnly (code : Nat)
  | dataRow (fields : List (Option (List Nat)))
  | commandComplete (text : List Nat)
  | readyForQuery (status : List Nat)
  | notificationResponse (processId : Int) (channel payload : List Nat)
  | authOk
  | authCleartextPassword
  | authMd5Password (salt : List Nat)
  | authSASL (mechanisms : List (List Nat))
  | authSASLContinue (data : List Nat)
  | authSASLFinal (data : List Nat)
  | parameterStatus (name value : List Nat)
  | backendKeyData (processID secretKey : Int)
  | noticeOrError (isError : Bool) (fields : NoticeFields)
  | rowDescription (fields : List FieldDesc)
  | copyInOut (isIn : Bool) (isBinary : Bool) (columnTypes : List Int)
  | copyData (data : List Nat)
deriving DecidableEq

/-! ## Response-side per-type parsers (response-parser.ts) -/

/-- parseDataRowMessage field loop: `n × (i32 len; len == -1 → null,
else string(len))`. -/
def dataRowFieldsR (buf : List Nat) : Nat → Nat → Option (List (Option (List Nat)) × Nat)
  | 0, off => some ([], off)
  | n + 1, off => do
    let (len, o1) ← int32R buf off
    if len = -1 then do
      let (rest, o2) ← dataRowFieldsR buf n o1
      some (none :: rest, o2)
    else do
      let (s, o2) ← stringR buf len o1
      let (rest, o3) ← dataRowFieldsR buf n o2
      some (some s :: rest, o3)

/-- parseField of parseRowDescriptionMessage. -/
def fieldDescR (buf : List Nat) (off : Nat) : Option (FieldDesc × Nat) := do
  let (name, o1) ← cstringR buf off
  let (tableID, o2) ← int32R buf o1
  let (columnID, o3) ← int16R buf o2
  let (dataTypeID, o4) ← int32R buf o3
  let (dataTypeSize, o5) ← int16R buf o4
  let (dataTypeModifier, o6) ← int32R buf o5
  let (mode, o7) ← int16R buf o6
  some (⟨name, tableID, columnID, dataTypeID, dataTypeSize, dataTypeModifier, mode = 0⟩, o7)

/-- parseRowDescriptionMessage field loop. -/
def fieldDescsR (buf : List Nat) : Nat → Nat → Option (List FieldDesc × Nat)
  | 0, off => some ([], off)
  | n + 1, off => do
    let (f, o1) ← fieldDescR buf off
    let (rest, o2) ← fieldDescsR buf n o1
    some (f :: rest, o2)

/-- parseCopyMessage column-type loop (`n × int16`). -/
def int16ListR (buf : List Nat) : Nat → Nat → Option (List Int × Nat)
  | 0, off => some ([], off)
  | n + 1, off => do
    let (v, o1) ← int16R buf off
    let (rest, o2) ← int16ListR buf n o1
    some (v :: rest, o2)

/-- parseErrorMessage loop: `(string(1) tag, cstring)` pairs until the tag
byte is NUL.  The fuel bounds the iteration count; each iteration consumes
at least two bytes, so `buf.length + 1` fuel is never exhausted before a
read fails. -/
def noticeFieldsR (buf : List Nat) : Nat → Nat → Option (List (List Nat × List Nat) × Nat)
  | 0, _ => none
  | fuel + 1, off => do
    let (tag, o1) ← stringR buf 1 off
    if tag = [0] then some ([], o1)
    else do
      let (v, o2) ← cstringR buf o1
      let (rest, o3) ← noticeFieldsR buf fuel o2
      some ((tag, v) :: rest, o3)

/-- JS object field lookup where the last assignment wins. -/
def recGet (fields : List (List Nat × List Nat)) (key : Nat) : Option (List Nat) :=
  (fields.reverse.find? (fun p => p.1 == [key])).map (fun p => p.2)

/-- The fixed tag-to-name projection at the end of parseErrorMessage. -/
def toNoticeFields (fs : List (List Nat × List Nat)) : NoticeFields where
  message := recGet fs 0x4d
  severity := recGet fs 0x53
  code := recGet fs 0x43
  detail := recGet fs 0x44
  hint := recGet fs 0x48
  position := recGet fs 0x50
  internalPosition := recGet fs 0x70
  internalQuery := recGet fs 0x71
  whereF := recGet fs 0x57
  schema := recGet fs 0x73
  table := recGet fs 0x74
  column := recGet fs 0x63
  dataType := recGet fs 0x64
  constraint := recGet fs 0x6e
  file := recGet fs 0x46
  line := recGet fs 0x4c
  routine := recGet fs 0x52

/-- AuthenticationSASL mechanism loop: cstrings until an empty one. -/
def saslMechanismsR (buf : List Nat) : Nat → Nat → Option (List (List Nat) × Nat)
  | 0, _ => none
  | fuel + 1, off => do
    let (m, o1) ← cstringR buf off
    if m = [] then some ([], o1)
    else do
      let (rest, o2) ← saslMechanismsR buf fuel o1
      some (m :: rest, o2)

/-- parseAuthenticationResponse: the leading `i32` subcode dispatch, with
the length-based fallbacks to `ok` for subcodes 3 and 5. -/
def authR (len : Nat) (buf : List Nat) (off : Nat) : Option (DbResponse × Nat) := do
  let (code, o1) ← int32R buf off
  if code = 0 then some (.authOk, o1)
  else if code = 3 then
    if len = 8 then some (.authCleartextPassword, o1) else some (.authOk, o1)
  else if code = 5 then
    if len = 12 then do
      let (salt, o2) ← bytesR buf 4 o1
      some (.authMd5Password salt, o2)
    else some (.authOk, o1)
  else if code = 10 then do
    let (ms, o2) ← saslMechanismsR buf (buf.length + 1) o1
    some (.authSASL ms, o2)
  else if code = 11 then do
    let (d, o2) ← stringR buf ((len : Int) - 8) o1
    some (.authSASLContinue d, o2)
  else if code = 12 then do
    let (d, o2) ← stringR buf ((len : Int) - 8) o1
    some (.authSASLFinal d, o2)
  else none

/-- DbResponseParser.handlePacket: dispatch on the code byte; the body
starts at `off` (header length 5 past the start of the frame).  `len` is
the declared length (excluding the code byte).  An unknown code throws in
the source; here `none`. -/
def respPacketR (code len : Nat) (buf : List Nat) (off : Nat) : Option (DbResponse × Nat) :=
  if code = 0x32 ∨ code = 0x31 ∨ code = 0x33 ∨ code = 0x6e ∨ code = 0x73 ∨
     code = 0x63 ∨ code = 0x57 ∨ code = 0x49 then
    some (.codeOnly code, off)
  else if code = 0x44 then do
    let (n, o1) ← int16R buf off
    if n < 0 then none   -- new Array(fieldCount) throws for a negative count
    else do
      let (fs, o2) ← dataRowFieldsR buf n.toNat o1
      some (.dataRow fs, o2)
  else if code = 0x43 then do
    let (t, o1) ← cstringR buf off
    some (.commandComplete t, o1)
  else if code = 0x5a then do
    let (s, o1) ← stringR buf 1 off
    some (.readyForQuery s, o1)
  else if code = 0x41 then do
    let (pid, o1) ← int32R buf off
    let (channel, o2) ← cstringR buf o1
    let (payload, o3) ← cstringR buf o2
    some (.notificationResponse pid channel payload, o3)
  else if code = 0x52 then
    authR len buf off
  else if code = 0x53 then do
    let (n, o1) ← cstringR buf off
    let (v, o2) ← cstringR buf o1
    some (.parameterStatus n v, o2)
  else if code = 0x4b then do
    let (p, o1) ← int32R buf off
    let (s, o2) ← int32R buf o1
    some (.backendKeyData p s, o2)
  else if code = 0x45 ∨ code = 0x4e then do
    let (fs, o1) ← noticeFieldsR buf (buf.length + 2) off
    some (.noticeOrError (code = 0x45) (toNoticeFields fs), o1)
  else if code = 0x54 then do
    let (n, o1) ← int16R buf off
    if n < 0 then none   -- Array(fieldCount) throws for a negative count
    else do
      let (fs, o2) ← fieldDescsR buf n.toNat o1
      some (.rowDescription fs, o2)
  else if code = 0x47 ∨ code = 0x48 then do
    let (b, o1) ← byteR buf off
    let (n, o2) ← int16R buf o1
    if n < 0 then none   -- Array(columnCount) throws for a negative count
    else do
      let (ts, o3) ← int16ListR buf n.toNat o2
      some (.copyInOut (code = 0x47) (b ≠ 0) ts, o3)
  else if code = 0x64 then do
    let (d, o1) ← bytesR buf ((len : Int) - 4) off
    some (.copyData d, o1)
  else none

/-! ## Response-side streaming loop (DbResponseParser.parse) -/

/-- One emission: the typed message together with the raw wire bytes
`buffer.slice(offset, offset + fullMessageLength)` that the `getRawData`
accessor returns when invoked during the callback. -/
abbrev RespEmit := DbResponse × List Nat

/-- The framed drain loop of `DbResponseParser.parse`: while at least five
bytes remain, peek the header; if the full `1 + length` bytes are present,
parse, emit, advance; otherwise stop.  Structural fuel: every iteration
consumes at least one byte, so `buf.length + 1` fuel never runs out. -/
def respDrainF : Nat → List Nat → Option (List RespEmit × List Nat)
  | 0, _ => none
  | fuel + 1, buf =>
    match hdr buf with
    | none => some ([], buf)
    | some (code, len) =>
      if 1 + len ≤ buf.length then
        match respPacketR code len buf 5 with
        | none => none
        | some (msg, _) =>
          match respDrainF fuel (buf.drop (1 + len)) with
          | none => none
          | some (ems, rest) => some ((msg, buf.take (1 + len)) :: ems, rest)
      else some ([], buf)

/-- `DbResponseParser.parse` on the live window `buf` (pending bytes
already merged with the incoming chunk). -/
def respDrain (buf : List Nat) : Option (List RespEmit × List Nat) :=
  respDrainF (buf.length + 1) buf

/-- Feeding a sequence of chunks to one `DbResponseParser`: the pending
window starts empty; each `parse` call drains `pending ++ chunk`;
emissions accumulate in order.  Result: final pending window and all
emissions, or `none` if any call threw. -/
def feedRespGo : List (List Nat) → List Nat → List RespEmit → Option (List Nat × List RespEmit)
  | [], p, acc => some (p, acc)
  | c :: cs, p, acc =>
    match respDrain (p ++ c) with
    | none => none
    | some (ems, rest) => feedRespGo cs rest (acc ++ ems)

def feedResp (chunks : List (List Nat)) : Option (List Nat × List RespEmit) :=
  feedRespGo chunks [] []

/-! ## Command-side per-type parsers (command-parser.ts) -/

def liftO : Option α → Except String α
  | some a => .ok a
  | none => .error "out of range read"

/-- The body of the `valuesRead` for-loop: `i16 kind`; kind 0 reads
`i32 len` and yields `null` for a negative len, else `string(len)`;
kind 1 reads `i32 len` and always slices `bytes(len)` (no null check);
any other kind assigns nothing. -/
def readValueR (buf : List Nat) (off : Nat) : Option (PVal × Nat) := do
  let (k, o1) ← int16R buf off
  if k = 0 then do
    let (strLen, o2) ← int32R buf o1
    if 0 ≤ strLen then do
      let (s, o3) ← stringR buf strLen o2
      some (.str s, o3)
    else some (.null, o2)
  else if k = 1 then do
    let (bufLen, o2) ← int32R buf o1
    let (b, o3) ← bytesR buf bufLen o2
    some (.bytes b, o3)
  else some (.undef, o1)

def valuesListR (buf : List Nat) : Nat → Nat → Option (List PVal × Nat)
  | 0, off => some ([], off)
  | n + 1, off => do
    let (v, o1) ← readValueR buf off
    let (rest, o2) ← valuesListR buf n o1
    some (v :: rest, o2)

/-- CommandParser.valuesRead: `i16 len` (a negative count makes
`Array(len)` throw), then `len` values. -/
def valuesReadR (buf : List Nat) (off : Nat) : Option (List PVal × Nat) := do
  let (len, o1) ← int16R buf off
  if len < 0 then none
  else valuesListR buf len.toNat o1

/-- CommandParser.parseParse: `n × i32` type-OID loop (the source pushes
into a plain array, so a negative count simply runs zero iterations). -/
def int32ListR (buf : List Nat) : Nat → Nat → Option (List Int × Nat)
  | 0, off => some ([], off)
  | n + 1, off => do
    let (v, o1) ← int32R buf off
    let (rest, o2) ← int32ListR buf n o1
    some (v :: rest, o2)

/-- CommandParser.parseInit option loop: NUL-terminated key/value pairs
until an empty key.  Fuel as in `noticeFieldsR`. -/
def optionsLoopR (buf : List Nat) : Nat → Nat → Option (List (List Nat × List Nat) × Nat)
  | 0, _ => none
  | fuel + 1, off => do
    let (k, o1) ← cstringR buf off
    if k = [] then some ([], o1)
    else do
      let (v, o2) ← cstringR buf o1
      let (rest, o3) ← optionsLoopR buf fuel o2
      some ((k, v) :: rest, o3)

/-- CommandParser.parseInit: `i16 major`, `i16 minor`, reject a major
version other than 3, then the option pairs. -/
def cmdParseInit (buf : List Nat) (off : Nat) : Except String (DbCommand × Nat) := do
  let (major, o1) ← liftO (int16R buf off)
  let (minor, o2) ← liftO (int16R buf o1)
  if major ≠ 3 then .error "Unsupported protocol version"
  else do
    let (opts, o3) ← liftO (optionsLoopR buf (buf.length + 1) o2)
    .ok (.init major minor opts, o3)

/-- CommandParser.parseBind: portal, statement, a discarded `i16`
(see serializer.ts:157), the values, then `i16 binaryFormat` compared
with `ParamType.BINARY`. -/
def parseBindR (buf : List Nat) (off : Nat) : Except String (DbCommand × Nat) := do
  let (portal, o1) ← liftO (cstringR buf off)
  let (statement, o2) ← liftO (cstringR buf o1)
  let (_lenAgain, o3) ← liftO (int16R buf o2)
  let (values, o4) ← liftO (valuesReadR buf o3)
  let (bfmt, o5) ← liftO (int16R buf o4)
  .ok (.bind portal statement values (bfmt = 1), o5)

/-- CommandParser.portalOp: a cstring whose first byte must be `P` (0x50)
or `S` (0x53); the remainder, when nonempty, is the name. -/
def portalOpR (code : Nat) (buf : List Nat) (off : Nat) : Except String (DbCommand × Nat) := do
  let (d, o1) ← liftO (cstringR buf off)
  match d with
  | b :: rest =>
    if b = 0x50 ∨ b = 0x53 then
      .ok (.portalOp code b (if rest = [] then none else some rest), o1)
    else .error "Unknown description"
  | [] => .error "Unknown description"

/-- CommandParser.handlePacket: dispatch on the command code, body at
`off`.  Code 0 (init) throws: the connection already started up.  Note the
copyFromChunk case reads `bytes(length)` — the full declared length, not
`length - 4`. -/
def cmdPacketR (code len : Nat) (buf : List Nat) (off : Nat) : Except String (DbCommand × Nat) :=
  if code = 0 then .error "Connection already started up"
  else if code = 0x70 then do
    let (hash, o1) ← liftO (cstringR buf off)
    .ok (.startupMd5 hash, o1)
  else if code = 0x50 then do
    let (queryName, o1) ← liftO (cstringR buf off)
    let (query, o2) ← liftO (cstringR buf o1)
    let (n, o3) ← liftO (int16R buf o2)
    let (ps, o4) ← liftO (int32ListR buf n.toNat o3)
    .ok (.parse queryName query ps, o4)
  else if code = 0x42 then parseBindR buf off
  else if code = 0x44 ∨ code = 0x43 then portalOpR code buf off
  else if code = 0x45 then do
    let (portal, o1) ← liftO (cstringR buf off)
    let (rows, o2) ← liftO (uint32R buf o1)
    .ok (.execute portal rows, o2)
  else if code = 0x48 ∨ code = 0x53 ∨ code = 0x58 ∨ code = 0x63 then
    .ok (.codeOnly code, off)
  else if code = 0x51 then do
    let (q, o1) ← liftO (cstringR buf off)
    .ok (.query q, o1)
  else if code = 0x66 then do
    let (m, o1) ← liftO (cstringR buf off)
    .ok (.copyFail m, o1)
  else if code = 0x64 then do
    let (b, o1) ← liftO (bytesR buf (len : Int) off)
    .ok (.copyFromChunk b, o1)
  else .error "unknown command code"

/-! ## Command-side streaming loop (CommandParser.parse) -/

abbrev CmdEmit := DbCommand × List Nat

/-- The framed drain loop of `CommandParser.parse` (the `started` branch);
identical reassembly to the response side. -/
def cmdDrainF : Nat → List Nat → Except String (List CmdEmit × List Nat)
  | 0, _ => .error "out of fuel"
  | fuel + 1, buf =>
    match hdr buf with
    | none => .ok ([], buf)
    | some (code, len) =>
      if 1 + len ≤ buf.length then
        match cmdPacketR code len buf 5 with
        | .error e => .error e
        | .ok (msg, _) =>
          match cmdDrainF fuel (buf.drop (1 + len)) with
          | .error e => .error e
          | .ok (ems, rest) => .ok ((msg, buf.take (1 + len)) :: ems, rest)
      else .ok ([], buf)

def cmdDrain (buf : List Nat) : Except String (List CmdEmit × List Nat) :=
  cmdDrainF (buf.length + 1) buf

/-- The decoder state: the startup latch and the live buffer window. -/
structure CmdState where
  started : Bool
  pending : List Nat
deriving DecidableEq

/-- CommandParser.parse.  Before startup: read `i32 len` at offset 0 and
parse the startup payload immediately — the source performs no
completeness check on this path — then emit `Init` with
`slice(offset, offset + len)` as raw bytes and advance by `len`.
After startup: the framed drain loop. -/
def cmdParse (st : CmdState) (chunk : List Nat) : Except String (CmdState × List CmdEmit) :=
  let buf := st.pending ++ chunk
  if st.started then do
    let (ems, rest) ← cmdDrain buf
    .ok (⟨true, rest⟩, ems)
  else do
    let (len, _) ← liftO (int32R buf 0)
    let (cmd, _) ← cmdParseInit buf 4
    .ok (⟨true, buf.drop len.toNat⟩, [(cmd, buf.take len.toNat)])

/-- Feeding a sequence of chunks to one `CommandParser`. -/
def cmdFeedGo : List (List Nat) → CmdState → List CmdEmit → Except String (CmdState × List CmdEmit)
  | [], st, acc => .ok (st, acc)
  | c :: cs, st, acc =>
    match cmdParse st c with
    | .error e => .error e
    | .ok (st', ems) => cmdFeedGo cs st' (acc ++ ems)

def cmdFeed (chunks : List (List Nat)) : Except String (CmdState × List CmdEmit) :=
  cmdFeedGo chunks ⟨false, []⟩ []

/-- The emissions of a parse call (an error emits nothing). -/
def emissionsOf (r : Except String (CmdState × List CmdEmit)) : List CmdEmit :=
  match r with
  | .ok (_, ems) => ems
  | .error _ => []

/-! ## Response writer (response-writer.ts) -/

/-- Big-endian bytes of a value, fixed width. -/
def beBytes : Nat → Nat → List Nat
  | 0, _ => []
  | n + 1, v => v / 256 ^ n % 256 :: beBytes n v

/-- Writer.addInt16 / addInt32: `w` bytes big-endian of the value reduced
modulo `2^(8w)`. -/
def intBytes (w : Nat) (v : Int) : List Nat :=
  beBytes w (v.emod (2 ^ (8 * w))).toNat

/-- Modelled from the spec: the growable `Writer` of buffer-writer.ts is
not part of the sources (only its import and call sites in
response-writer.ts are).  Per §4.2, `flush(code)` produces a complete wire
message: one code byte, then a 4-byte BE length field (body length + 4),
then the body, and the writer resets. -/
def flushFrame (code : Nat) (body : List Nat) : List Nat :=
  code :: beBytes 4 (body.length + 4) ++ body

/-- ResponseWriter.readyForQuery: `addString(status?.[0] ?? 'I')` then
flush with code `Z` (0x5a).  An omitted or empty status falls back to
`'I'` (0x49); otherwise only the first unit of the status is written. -/
def readyForQueryBytes (status : Option (List Nat)) : List Nat :=
  flushFrame 0x5a (match status with
    | some (b :: _) => [b]
    | _ => [0x49])

/-- ResponseWriter.dataRow: `addInt16(row.length)`, then per field
`addInt16(-1)` for a nullish value — note: int16, two bytes — else
`addInt32(length)` and the bytes; flushed with code `D` (0x44). -/
def dataRowBytes (fields : List (Option (List Nat))) : List Nat :=
  flushFrame 0x44 (intBytes 2 fields.length ++
    (fields.map fun f => match f with
      | none => intBytes 2 (-1)
      | some s => intBytes 4 s.length ++ s).flatten)

/-- ResponseWriter.error with a plain string argument: the string becomes
`{ message: e }`, whose single entry is written as tag `M` (0x4d) plus a
cstring when the value is a nonempty string, followed by the `'\0'`
terminator byte; flushed with code `E` (0x45). -/
def errorStringBytes (e : List Nat) : List Nat :=
  flushFrame 0x45 ((if e = [] then [] else 0x4d :: e ++ [0]) ++ [0])

/-! ## Raw-data accessor latch (CommandParser.process / DbResponseParser.process) -/

/-- The closure state of one `getRawData` accessor: the cached slice
`thisData` and the `callingback` flag that is true only while the
user callback runs. -/
structure RawHandle where
  thisData : Option (List Nat)
  callingback : Bool
deriving DecidableEq

/-- The accessor body: return the cache if set; otherwise slice and cache
while the callback is running, and throw afterwards. -/
def getRawData (raw : List Nat) (h : RawHandle) : Except String (List Nat × RawHandle) :=
  match h.thisData with
  | some d => .ok (d, h)
  | none =>
    if h.callingback then .ok (raw, ⟨some raw, h.callingback⟩)
    else .error "If you are interested in raw data, please ask for it sooner"

/-- `callingback = false` once the callback returns. -/
def endCallback (h : RawHandle) : RawHandle := ⟨h.thisData, false⟩

/-- A sequence of `n` accessor invocations, collecting each result (a
thrown error leaves the closure state unchanged). -/
def runCalls (raw : List Nat) : Nat → RawHandle → List (Except String (List Nat)) × RawHandle
  | 0, h => ([], h)
  | n + 1, h =>
    match getRawData raw h with
    | .ok (d, h') =>
      let p := runCalls raw n h'
      (.ok d :: p.1, p.2)
    | .error e =>
      let p := runCalls raw n h
      (.error e :: p.1, p.2)

/-! ## Simple-proxy policy (proxy.ts, createSimpleProxy.onCommand) -/

/-- The user policy result: a (possibly rewritten) query string or a
rejection object. -/
inductive CommandOrError where
  | str (s : List Nat)
  | err (e : List Nat)
deriving DecidableEq

/-- Calls issued on the client-side response writer. -/
inductive ClientCall where
  | errCall (e : List Nat)
  | readyCall
deriving DecidableEq

/-- Calls issued on the upstream database writer. -/
inductive DbCall where
  | sendCmd (c : DbCommand)
  | sendRaw (b : List Nat)
deriving DecidableEq

/-- `command.query` for the two kinds the interceptor handles. -/
def queryOf : DbCommand → Option (List Nat)
  | .query q => some q
  | .parse _ q _ => some q
  | _ => none

/-- `command.query = transformed` before `db.send(command)`. -/
def setQuery : DbCommand → List Nat → DbCommand
  | .query _, t => .query t
  | .parse n _ ps, t => .parse n t ps
  | c, _ => c

/-- The simple-proxy `onCommand` body (synchronous path): for Parse/Query
ask `onQuery`; a rejection emits `client.error` then `client.readyForQuery()`
and forwards nothing; a rewrite re-serializes and sends the command; an
identical string — and every other command kind — forwards the raw bytes. -/
def simpleOnCommand (onQuery : List Nat → CommandOrError) (cmd : DbCommand) (raw : List Nat) :
    List ClientCall × List DbCall :=
  match queryOf cmd with
  | some q =>
    match onQuery q with
    | .err e => ([.errCall e, .readyCall], [])
    | .str t => if t = q then ([], [.sendRaw raw]) else ([], [.sendCmd (setQuery cmd t)])
  | none => ([], [.sendRaw raw])

/-- The wire bytes each client-side call produces through the
ResponseWriter. -/
def clientCallBytes : ClientCall → List Nat
  | .errCall e => errorStringBytes e
  | .readyCall => readyForQueryBytes none

/-! ## Well-formed frames (used to state the chunking-invariance results) -/

/-- No complete frame is available at the front of `p`: either fewer than
five bytes, or the declared length demands more bytes than are present.
This is exactly the condition under which the drain loops stop. -/
def noFull (p : List Nat) : Bool :=
  match hdr p with
  | none => true
  | some (_, l) => decide (p.length < 1 + l)

/-- A context-independent well-formed response frame: the declared length
matches the frame size and the per-type parser yields the same result no
matter what bytes follow the frame in the buffer.  (A frame whose parse
reads past its own end — or fails — is not valid; rechunking genuinely
changes the decoder output on such input.) -/
def ValidFrame (f : List Nat) : Prop :=
  ∃ c l r, hdr f = some (c, l) ∧ f.length = 1 + l ∧
    ∀ ext, respPacketR c l (f ++ ext) 5 = some r

/-- The emission the drain loop produces for a frame standing alone at the
front of the buffer: the parsed message and the frame itself as raw bytes. -/
def frameEmit (f : List Nat) : RespEmit :=
  (match hdr f with
   | some (c, l) =>
     match respPacketR c l f 5 with
     | some (m, _) => m
     | none => .codeOnly 0
   | none => .codeOnly 0, f)

/-! ## Helper lemmas -/

theorem runCalls_cached (raw d : List Nat) (b : Bool) :
    ∀ n, runCalls raw n ⟨some d, b⟩ = (List.replicate n (.ok d), ⟨some d, b⟩) := by
  intro n
  induction n with
  | zero => rfl
  | succ m ih => simp [runCalls, getRawData, ih, List.replicate_succ]

theorem runCalls_dead (raw : List Nat) :
    ∀ n, runCalls raw n ⟨none, false⟩ =
      (List.replicate n (.error "If you are interested in raw data, please ask for it sooner"),
        ⟨none, false⟩) := by
  intro n
  induction n with
  | zero => rfl
  | succ m ih => simp [runCalls, getRawData, ih, List.replicate_succ]

theorem ok_of_bind {α β : Type} {x : Except String α} {f : α → Except String β} {r : β}
    (h : (x >>= f) = .ok r) : ∃ a, x = .ok a ∧ f a = .ok r := by
  cases x with
  | error e => exact absurd h (by simp [Bind.bind, Except.bind])
  | ok a => exact ⟨a, rfl, by simpa [Bind.bind, Except.bind] using h⟩

theorem cmdPacketR_not_init (code len : Nat) (buf : List Nat) (off : Nat)
    (cmd : DbCommand) (o : Nat) (h : cmdPacketR code len buf off = .ok (cmd, o)) :
    cmd.isInit = false := by
  unfold cmdPacketR at h
  by_cases c0 : code = 0
  · rw [if_pos c0] at h; cases h
  rw [if_neg c0] at h
  by_cases c1 : code = 0x70
  · rw [if_pos c1] at h
    obtain ⟨⟨s, o1⟩, _, h⟩ := ok_of_bind h
    injection h with h1
    injection h1 with h2 h3
    subst h2; rfl
  rw [if_neg c1] at h
  by_cases c2 : code = 0x50
  · rw [if_pos c2] at h
    obtain ⟨⟨a1, o1⟩, _, h⟩ := ok_of_bind h
    obtain ⟨⟨a2, o2⟩, _, h⟩ := ok_of_bind h
    obtain ⟨⟨a3, o3⟩, _, h⟩ := ok_of_bind h
    obtain ⟨⟨a4, o4⟩, _, h⟩ := ok_of_bind h
    injection h with h1
    injection h1 with h2 h3
    subst h2; rfl
  rw [if_neg c2] at h
  by_cases c3 : code = 0x42
  · rw [if_pos c3] at h
    unfold parseBindR at h
    obtain ⟨⟨a1, o1⟩, _, h⟩ := ok_of_bind h
    obtain ⟨⟨a2, o2⟩, _, h⟩ := ok_of_bind h
    obtain ⟨⟨a3, o3⟩, _, h⟩ := ok_of_bind h
    obtain ⟨⟨a4, o4⟩, _, h⟩ := ok_of_bind h
    obtain ⟨⟨a5, o5⟩, _, h⟩ := ok_of_bind h
    injection h with h1
    injection h1 with h2 h3
    subst h2; rfl
  rw [if_neg c3] at h
  by_cases c4 : code = 0x44 ∨ code = 0x43
  · rw [if_pos c4] at h
    unfold portalOpR at h
    obtain ⟨⟨d, o1⟩, _, h⟩ := ok_of_bind h
    dsimp only [] at h
    cases d with
    | nil => cases h
    | cons b rest =>
      dsimp only [] at h
      by_cases c5 : b = 0x50 ∨ b = 0x53
      · rw [if_pos c5] at h
        injection h with h1
        injection h1 with h2 h3
        subst h2; rfl
      · rw [if_neg c5] at h; cases h
  rw [if_neg c4] at h
  by_cases c6 : code = 0x45
  · rw [if_pos c6] at h
    obtain ⟨⟨a1, o1⟩, _, h⟩ := ok_of_bind h
    obtain ⟨⟨a2, o2⟩, _, h⟩ := ok_of_bind h
    injection h with h1
    injection h1 with h2 h3
    subst h2; rfl
  rw [if_neg c6] at h
  by_cases c7 : code = 0x48 ∨ code = 0x53 ∨ code = 0x58 ∨ code = 0x63
  · rw [if_pos c7] at h
    injection h with h1
    injection h1 with h2 h3
    subst h2; rfl
  rw [if_neg c7] at h
  by_cases c8 : code = 0x51
  · rw [if_pos c8] at h
    obtain ⟨⟨a1, o1⟩, _, h⟩ := ok_of_bind h
    injection h with h1
    injection h1 with h2 h3
    subst h2; rfl
  rw [if_neg c8] at h
  by_cases c9 : code = 0x66
  · rw [if_pos c9] at h
    obtain ⟨⟨a1, o1⟩, _, h⟩ := ok_of_bind h
    injection h with h1
    injection h1 with h2 h3
    subst h2; rfl
  rw [if_neg c9] at h
  by_cases c10 : code = 0x64
  · rw [if_pos c10] at h
    obtain ⟨⟨a1, o1⟩, _, h⟩ := ok_of_bind h
    injection h with h1
    injection h1 with h2 h3
    subst h2; rfl
  rw [if_neg c10] at h
  cases h

theorem cmdDrainF_not_init :
    ∀ (fuel : Nat) (buf : List Nat) ems rest, cmdDrainF fuel buf = .ok (ems, rest) →
      ∀ p ∈ ems, p.1.isInit = false := by
  intro fuel
  induction fuel with
  | zero => intro buf ems rest h; cases h
  | succ m ih =>
    intro buf ems rest h p hp
    unfold cmdDrainF at h
    split at h
    · cases h; cases hp
    · split at h
      · split at h
        · cases h
        · split at h
          · cases h
          · cases h
            rcases List.mem_cons.1 hp with h1 | h1
            · subst h1
              exact cmdPacketR_not_init _ _ _ _ _ _ (by assumption)
            · exact ih _ _ _ (by assumption) _ h1
      · cases h; cases hp

/-! ## Claim theorems -/

/-- C2 (code bug witnessed): `ResponseWriter.dataRow` encodes a null field
with `addInt16(-1)` — two bytes `0xFF 0xFF` — while
`DbResponseParser.parseDataRowMessage` reads an `i32` field length, so
decoding the encoded `DataRow [null]` fails with an out-of-range `int32`
read instead of round-tripping to the row. -/
theorem dataRow_null_roundtrip_eval :
    dataRowBytes [none] = [0x44, 0, 0, 0, 8, 0, 1, 255, 255]
    ∧ feedResp [dataRowBytes [none]] = none := by
  constructor <;> rfl

/-- C3 (code bug witnessed): before startup there is no completeness
check.  Feeding the first four bytes of a valid nine-byte startup packet
(the length header alone) makes `CommandParser.parse` throw on the
out-of-range version read instead of leaving the bytes pending until more
input arrives. -/
theorem startup_incomplete_eval :
    cmdParse ⟨false, []⟩ [0, 0, 0, 9] = .error "out of range read" := by
  rfl

/-- C6 (code bug witnessed): a CopyFromChunk frame with declared length 5
followed by a Sync frame in the same buffer.  The cursor does advance by
exactly `1 + length` per frame (the Sync is still parsed correctly), but
the chunk buffer handed out is `reader.bytes(length)` — five bytes that
spill over the next frame's header — instead of the `length - 4 = 1`
body byte. -/
theorem copyFromChunk_eval :
    cmdParse ⟨true, []⟩ [0x64, 0, 0, 0, 5, 0xaa, 0x53, 0, 0, 0, 4] =
      .ok (⟨true, []⟩,
        [(.copyFromChunk [0xaa, 0x53, 0, 0, 0], [0x64, 0, 0, 0, 5, 0xaa]),
         (.codeOnly 0x53, [0x53, 0, 0, 0, 4])]) := by
  rfl

/-- C1 (counterexample): the byte stream of a single valid startup packet,
fed whole, yields the `Init` message; fed as two chunks split inside the
packet, the decoder throws on the first call instead of producing the same
message sequence. -/
theorem chunkInvariance_cmd_cx :
    cmdFeed [[0, 0, 0, 9, 0, 3, 0, 0, 0]] =
      .ok (⟨true, []⟩, [(.init 3 0 [], [0, 0, 0, 9, 0, 3, 0, 0, 0])])
    ∧ cmdFeed [[0, 0, 0, 9], [0, 3, 0, 0, 0]] = .error "out of range read" := by
  constructor <;> rfl

/-- C5 (counterexample): a Bind frame whose single value is kind 1
(binary) with declared length `-1`.  The decoder parses the frame
successfully but yields the empty byte buffer for the value — not null —
because `valuesRead` only applies the null check to kind 0. -/
theorem bindValues_cx :
    cmdParse ⟨true, []⟩
        [0x42, 0, 0, 0, 18, 0, 0, 0, 0, 0, 1, 0, 1, 255, 255, 255, 255, 0, 0] =
      .ok (⟨true, []⟩, [(.bind [] [] [.bytes []] false,
        [0x42, 0, 0, 0, 18, 0, 0, 0, 0, 0, 1, 0, 1, 255, 255, 255, 255, 0, 0])]) := by
  rfl

/-- C5 (amended): in `valuesRead`, a kind-0 (text) value with a negative
declared `i32` length yields null, and with length `n ≥ 0` consumes
exactly `n` bytes as a string; a kind-1 (binary) value with length
`n ≥ 0` consumes exactly `n` raw bytes (the null check does not apply to
kind 1 — see the counterexample). -/
theorem bindValues_amended (buf : List Nat) (off o2 o3 n : Nat) :
    (int16R buf off = some (0, o2) → int32R buf o2 = some (-1, o3) →
      readValueR buf off = some (.null, o3))
    ∧ (int16R buf off = some (0, o2) → int32R buf o2 = some ((n : Int), o3) →
      readValueR buf off = some (.str ((buf.drop o3).take n), o3 + n))
    ∧ (int16R buf off = some (1, o2) → int32R buf o2 = some ((n : Int), o3) →
      readValueR buf off = some (.bytes ((buf.drop o3).take n), o3 + n)) := by
  refine ⟨fun h1 h2 => ?_, fun h1 h2 => ?_, fun h1 h2 => ?_⟩ <;>
    simp [readValueR, h1, h2, Bind.bind, Option.bind, stringR, bytesR]
  · rw [if_neg (by omega)]
    simp
    omega
  · rw [if_neg (by omega)]
    simp
    omega

/-- C5 (amended, witness): the three value shapes at concrete inputs. -/
theorem bindValues_amended_w :
    readValueR [0, 0, 255, 255, 255, 255] 0 = some (.null, 6)
    ∧ readValueR [0, 0, 0, 0, 0, 2, 7, 8] 0 = some (.str [7, 8], 8)
    ∧ readValueR [0, 1, 0, 0, 0, 2, 7, 8] 0 = some (.bytes [7, 8], 8) :=
  ⟨(bindValues_amended [0, 0, 255, 255, 255, 255] 0 2 6 0).1 (by decide) (by decide),
   (bindValues_amended [0, 0, 0, 0, 0, 2, 7, 8] 0 2 6 2).2.1 (by decide) (by decide),
   (bindValues_amended [0, 1, 0, 0, 0, 2, 7, 8] 0 2 6 2).2.2 (by decide) (by decide)⟩

/-- C4 (counterexample): the raw-bytes accessor does not remain valid
until the next decode call: if it was never invoked during the callback,
invoking it right after the callback returns — before any further decode
call — throws instead of returning the wire bytes. -/
theorem rawBytes_cx :
    getRawData [0x51, 0, 0, 0, 4] ⟨none, false⟩ =
      .error "If you are interested in raw data, please ask for it sooner" := by
  rfl

/-- C8 (confirmed): once `started` is true, a framed message with the init
code 0 makes the decoder throw the fatal
"Connection already started up" error, and no parse call on a started
decoder ever emits an `Init` message again. -/
theorem second_startup_error :
    cmdParse ⟨true, []⟩ [0, 0, 0, 0, 4] = .error "Connection already started up"
    ∧ ∀ (st : CmdState) (chunk : List Nat), st.started = true →
        ∀ p ∈ emissionsOf (cmdParse st chunk), p.1.isInit = false := by
  constructor
  · rfl
  · intro st chunk hs p hp
    unfold cmdParse at hp
    rw [hs] at hp
    simp only [if_true] at hp
    rcases hd : cmdDrain (st.pending ++ chunk) with e | ⟨ems, rest⟩
    · rw [hd] at hp
      simp [Bind.bind, Except.bind, emissionsOf] at hp
    · rw [hd] at hp
      simp only [Bind.bind, Except.bind, emissionsOf] at hp
      exact cmdDrainF_not_init _ _ _ _ hd p hp

/-- C8 (witness): the no-second-init fact applied to a started state and
the concrete second-startup frame. -/
theorem second_startup_error_w :
    (⟨true, []⟩ : CmdState).started = true
    ∧ ∀ p ∈ emissionsOf (cmdParse ⟨true, []⟩ [0, 0, 0, 0, 4]), p.1.isInit = false :=
  ⟨rfl, second_startup_error.2 ⟨true, []⟩ [0, 0, 0, 0, 4] rfl⟩

/-- C9 (confirmed): the raw-data accessor is a one-shot latch.  Any number
of invocations while the callback runs all return the message's raw bytes
(the first caches them); after the callback, every invocation still
returns the cached bytes if at least one invocation happened during the
callback, and every invocation throws if none did. -/
theorem rawData_latch (raw : List Nat) (n1 n2 : Nat) :
    (runCalls raw n1 ⟨none, true⟩).1 = List.replicate n1 (.ok raw)
    ∧ (0 < n1 →
        (runCalls raw n2 (endCallback (runCalls raw n1 ⟨none, true⟩).2)).1 =
          List.replicate n2 (.ok raw))
    ∧ (n1 = 0 →
        (runCalls raw n2 (endCallback (runCalls raw n1 ⟨none, true⟩).2)).1 =
          List.replicate n2
            (.error "If you are interested in raw data, please ask for it sooner")) := by
  cases n1 with
  | zero =>
    refine ⟨rfl, fun h => absurd h (by omega), fun _ => ?_⟩
    simp [runCalls, endCallback, runCalls_dead]
  | succ m =>
    have hrun : runCalls raw (m + 1) ⟨none, true⟩ =
        (.ok raw :: List.replicate m (.ok raw), ⟨some raw, true⟩) := by
      simp [runCalls, getRawData, runCalls_cached]
    refine ⟨?_, fun _ => ?_, fun h => by cases h⟩
    · rw [hrun, List.replicate_succ]
    · rw [hrun]
      simp [endCallback, runCalls_cached]

/-- C9 (witness): one invocation during the callback, two after. -/
theorem rawData_latch_w :
    (runCalls [7] 1 ⟨none, true⟩).1 = List.replicate 1 (.ok [7])
    ∧ (runCalls [7] 2 (endCallback (runCalls [7] 1 ⟨none, true⟩).2)).1 =
        List.replicate 2 (.ok [7]) :=
  ⟨(rawData_latch [7] 1 2).1, (rawData_latch [7] 1 2).2.1 (by omega)⟩

/-- C10 (confirmed): `ResponseWriter.readyForQuery` emits a ReadyForQuery
frame whose body is exactly one status byte: `I` when the status is
omitted or empty, and the first unit of the status otherwise — anything
past the first is dropped. -/
theorem readyForQuery_status :
    readyForQueryBytes none = [0x5a, 0, 0, 0, 5, 0x49]
    ∧ readyForQueryBytes (some []) = [0x5a, 0, 0, 0, 5, 0x49]
    ∧ ∀ b rest, readyForQueryBytes (some (b :: rest)) = [0x5a, 0, 0, 0, 5, b] := by
  refine ⟨rfl, rfl, fun b rest => ?_⟩
  simp [readyForQueryBytes, flushFrame, beBytes]

/-- C7 (confirmed): the simple-proxy policy: a Parse or Query command that
`onQuery` rejects with `{error : e}` produces exactly `client.error(e)`
followed by `client.readyForQuery()` — an ErrorMessage frame with the `M`
field `e` and a ReadyForQuery frame with status `I` — and sends nothing
upstream; every command of any other kind forwards its raw bytes upstream
unchanged. -/
theorem simpleProxy_policy :
    (∀ (onQuery : List Nat → CommandOrError) (q e raw : List Nat),
      onQuery q = .err e →
        simpleOnCommand onQuery (.query q) raw = ([.errCall e, .readyCall], [])
        ∧ ∀ nm ps, simpleOnCommand onQuery (.parse nm q ps) raw = ([.errCall e, .readyCall], []))
    ∧ (∀ (onQuery : List Nat → CommandOrError) (cmd : DbCommand) (raw : List Nat),
        queryOf cmd = none → simpleOnCommand onQuery cmd raw = ([], [.sendRaw raw]))
    ∧ clientCallBytes .readyCall = [0x5a, 0, 0, 0, 5, 0x49]
    ∧ (∀ e : List Nat, e ≠ [] →
        clientCallBytes (.errCall e) = 0x45 :: beBytes 4 (e.length + 7) ++ 0x4d :: (e ++ [0, 0])) := by
  refine ⟨fun onQuery q e raw h => ⟨?_, fun nm ps => ?_⟩, fun onQuery cmd raw h => ?_, rfl,
    fun e he => ?_⟩
  · simp [simpleOnCommand, queryOf, h]
  · simp [simpleOnCommand, queryOf, h]
  · simp [simpleOnCommand, h]
  · simp [clientCallBytes, errorStringBytes, flushFrame, he]

/-- C7 (witness): a rejected query and a forwarded non-query command. -/
theorem simpleProxy_policy_w :
    simpleOnCommand (fun _ => .err [0x58]) (.query [0x51]) [1, 2] = ([.errCall [0x58], .readyCall], [])
    ∧ simpleOnCommand (fun _ => .err [0x58]) (.codeOnly 0x53) [1, 2] = ([], [.sendRaw [1, 2]])
    ∧ clientCallBytes (.errCall [0x58]) = 0x45 :: beBytes 4 8 ++ 0x4d :: ([0x58] ++ [0, 0]) :=
  ⟨(simpleProxy_policy.1 (fun _ => .err [0x58]) [0x51] [0x58] [1, 2] rfl).1,
   simpleProxy_policy.2.1 (fun _ => .err [0x58]) (.codeOnly 0x53) [1, 2] rfl,
   simpleProxy_policy.2.2.2 [0x58] (by simp)⟩

/-! ## Chunking invariance of the framed drain loop -/

theorem respDrainF_congr :
    ∀ (f1 f2 : Nat) (buf : List Nat), buf.length < f1 → buf.length < f2 →
      respDrainF f1 buf = respDrainF f2 buf := by
  intro f1
  induction f1 with
  | zero => intro f2 buf h1 h2; exact absurd h1 (by omega)
  | succ g1 ih =>
    intro f2 buf h1 h2
    cases f2 with
    | zero => exact absurd h2 (by omega)
    | succ g2 =>
      unfold respDrainF
      cases hh : hdr buf with
      | none => rfl
      | some cl =>
        obtain ⟨c, l⟩ := cl
        by_cases hc : 1 + l ≤ buf.length
        · simp only [if_pos hc]
          cases hp : respPacketR c l buf 5 with
          | none => rfl
          | some m =>
            rw [ih g2 (buf.drop (1 + l)) (by simp; omega) (by simp; omega)]
        · simp only [if_neg hc]

theorem hdr_append {f : List Nat} {x : Nat × Nat} (t : List Nat) (h : hdr f = some x) :
    hdr (f ++ t) = some x := by
  rcases f with _ | ⟨c, _ | ⟨a, _ | ⟨b, _ | ⟨d, _ | ⟨e, rest⟩⟩⟩⟩⟩ <;> simp_all [hdr]

theorem hdr_none_short {p : List Nat} (h : p.length < 5) : hdr p = none := by
  rcases p with _ | ⟨c, _ | ⟨a, _ | ⟨b, _ | ⟨d, _ | ⟨e, rest⟩⟩⟩⟩⟩ <;> simp_all [hdr]
  omega

theorem hdr_some_long {p : List Nat} (h : 5 ≤ p.length) : ∃ x, hdr p = some x := by
  rcases p with _ | ⟨c, _ | ⟨a, _ | ⟨b, _ | ⟨d, _ | ⟨e, rest⟩⟩⟩⟩⟩ <;> simp_all [hdr]

theorem hdr_length {p : List Nat} {x : Nat × Nat} (h : hdr p = some x) : 5 ≤ p.length := by
  rcases p with _ | ⟨c, _ | ⟨a, _ | ⟨b, _ | ⟨d, _ | ⟨e, rest⟩⟩⟩⟩⟩ <;> simp_all [hdr]

theorem drainF_stop (fuel : Nat) {p : List Nat} (h : noFull p = true) :
    respDrainF (fuel + 1) p = some ([], p) := by
  unfold respDrainF
  unfold noFull at h
  cases hh : hdr p with
  | none => simp [hh]
  | some cl =>
    obtain ⟨c, l⟩ := cl
    rw [hh] at h
    simp only [decide_eq_true_eq] at h
    simp [hh, if_neg (by omega : ¬ 1 + l ≤ p.length)]

theorem drain_stop {p : List Nat} (h : noFull p = true) : respDrain p = some ([], p) :=
  drainF_stop p.length h

theorem noFull_of_proper {f p u : List Nat} (hv : ValidFrame f) (hpt : p ++ u = f)
    (ht : p.length < f.length) : noFull p = true := by
  obtain ⟨c, l, r, hh, hl, _⟩ := hv
  by_cases h5 : p.length < 5
  · simp [noFull, hdr_none_short h5]
  · obtain ⟨x, hx⟩ := hdr_some_long (by omega : 5 ≤ p.length)
    have h2 : hdr f = some x := hpt ▸ hdr_append u hx
    rw [hh] at h2
    obtain rfl : x = (c, l) := (Option.some.inj h2).symm
    simp [noFull, hx]
    omega

theorem append_factor {α : Type} {q t a b : List α} (h : q ++ t = a ++ b)
    (hl : q.length ≤ a.length) : ∃ u, a = q ++ u ∧ t = u ++ b := by
  refine ⟨a.drop q.length, ?_, ?_⟩
  · have h1 : (q ++ t).take q.length = q := List.take_left q t
    rw [h, List.take_append_of_le_length hl] at h1
    conv_lhs => rw [← List.take_append_drop q.length a]
    rw [h1]
  · have h2 : a = q ++ a.drop q.length := by
      have h1 : (q ++ t).take q.length = q := List.take_left q t
      rw [h, List.take_append_of_le_length hl] at h1
      conv_lhs => rw [← List.take_append_drop q.length a]
      rw [h1]
    rw [h2, List.append_assoc] at h
    exact List.append_cancel_left h

theorem drain_of_valid :
    ∀ (fs : List (List Nat)) (q t : List Nat), (∀ f ∈ fs, ValidFrame f) →
      q ++ t = fs.flatten →
      ∃ fs1 fs2 r, fs = fs1 ++ fs2 ∧ q = fs1.flatten ++ r ∧ noFull r = true ∧
        (fs2 = [] → r = []) ∧ respDrain q = some (fs1.map frameEmit, r) := by
  intro fs
  induction fs with
  | nil =>
    intro q t hv h
    simp only [List.flatten_nil] at h
    obtain ⟨rfl, rfl⟩ := List.append_eq_nil.1 h
    exact ⟨[], [], [], rfl, rfl, rfl, fun _ => rfl, rfl⟩
  | cons f fs ih =>
    intro q t hv h
    have hvf : ValidFrame f := hv f (List.mem_cons_self f fs)
    rw [List.flatten_cons] at h
    by_cases hlen : q.length < f.length
    · obtain ⟨u, hfu, _⟩ := append_factor (by simpa [List.append_assoc] using h)
        (Nat.le_of_lt hlen)
      have hnf : noFull q = true := noFull_of_proper hvf hfu.symm hlen
      refine ⟨[], f :: fs, q, rfl, by simp, hnf, fun h2 => absurd h2 (by simp), drain_stop hnf⟩
    · push_neg at hlen
      obtain ⟨u, hqu, hju⟩ := append_factor h.symm hlen
      obtain ⟨c, l, ⟨msg, mo⟩, hh, hl1, hext⟩ := hvf
      have hhq : hdr q = some (c, l) := hqu ▸ hdr_append u hh
      have hqlen : q.length = f.length + u.length := by rw [hqu]; simp
      have hcomp : 1 + l ≤ q.length := by omega
      have hpkt : respPacketR c l q 5 = some (msg, mo) := by rw [hqu]; exact hext u
      have hemit : frameEmit f = (msg, f) := by
        have h0 := hext []
        rw [List.append_nil] at h0
        unfold frameEmit
        simp only [hh, h0]
      have hdrop : q.drop (1 + l) = u := by
        rw [hqu, ← hl1]
        exact List.drop_left f u
      have htake : q.take (1 + l) = f := by
        rw [hqu, ← hl1]
        exact List.take_left f u
      have hf5 : 5 ≤ f.length := hdr_length hh
      obtain ⟨fs1, fs2, r, hsp, hq2, hnr, hre, hdn⟩ :=
        ih u t (fun g hg => hv g (List.mem_cons_of_mem f hg)) hju.symm
      refine ⟨f :: fs1, fs2, r, by rw [List.cons_append, hsp], ?_, hnr, hre, ?_⟩
      · rw [List.flatten_cons, hqu, hq2, List.append_assoc]
      · show respDrainF (q.length + 1) q = _
        unfold respDrainF
        simp only [hhq, if_pos hcomp, hpkt, hdrop]
        rw [respDrainF_congr q.length (u.length + 1) u (by omega) (by omega)]
        show (match respDrain u with
          | none => none
          | some (ems, rest) => some ((msg, q.take (1 + l)) :: ems, rest)) = _
        rw [hdn, htake]
        simp [hemit]

theorem flatten_valid_noFull {fs : List (List Nat)} (hv : ∀ f ∈ fs, ValidFrame f)
    (hnf : noFull fs.flatten = true) : fs = [] := by
  cases fs with
  | nil => rfl
  | cons g gs =>
    exfalso
    obtain ⟨c, l, r, hh, hl, _⟩ := hv g (List.mem_cons_self g gs)
    have hhj : hdr (g :: gs).flatten = some (c, l) := by
      rw [List.flatten_cons]
      exact hdr_append gs.flatten hh
    unfold noFull at hnf
    rw [hhj] at hnf
    simp only [decide_eq_true_eq] at hnf
    have : g.length ≤ (g :: gs).flatten.length := by
      rw [List.flatten_cons]
      simp
    omega

theorem feedGo_of_valid :
    ∀ (cs fs : List (List Nat)) (p : List Nat) (acc : List RespEmit),
      (∀ f ∈ fs, ValidFrame f) → noFull p = true → p ++ cs.flatten = fs.flatten →
      feedRespGo cs p acc = some ([], acc ++ fs.map frameEmit) := by
  intro cs
  induction cs with
  | nil =>
    intro fs p acc hv hnf hinv
    simp only [List.flatten_nil, List.append_nil] at hinv
    subst hinv
    obtain rfl : fs = [] := flatten_valid_noFull hv hnf
    simp [feedRespGo]
  | cons c cs ih =>
    intro fs p acc hv hnf hinv
    rw [List.flatten_cons] at hinv
    have hq : (p ++ c) ++ cs.flatten = fs.flatten := by
      rw [List.append_assoc]; exact hinv
    obtain ⟨fs1, fs2, r, hsplit, hq2, hnr, _, hdn⟩ :=
      drain_of_valid fs (p ++ c) cs.flatten hv hq
    have hv2 : ∀ f ∈ fs2, ValidFrame f := fun f hf =>
      hv f (by rw [hsplit]; exact List.mem_append_right fs1 hf)
    have hinv2 : r ++ cs.flatten = fs2.flatten := by
      have hj : fs.flatten = fs1.flatten ++ fs2.flatten := by
        rw [hsplit, List.flatten_append]
      have h3 : fs1.flatten ++ (r ++ cs.flatten) = fs1.flatten ++ fs2.flatten := by
        rw [← List.append_assoc, ← hq2, hq, hj]
      exact List.append_cancel_left h3
    show (match respDrain (p ++ c) with
      | none => none
      | some (ems, rest) => feedRespGo cs rest (acc ++ ems)) = _
    rw [hdn]
    show feedRespGo cs r (acc ++ fs1.map frameEmit) = _
    rw [ih fs2 r (acc ++ fs1.map frameEmit) hv2 hnr hinv2]
    rw [hsplit, List.map_append, List.append_assoc]

theorem feedResp_of_valid (fs chunks : List (List Nat)) (hv : ∀ f ∈ fs, ValidFrame f)
    (hj : chunks.flatten = fs.flatten) :
    feedResp chunks = some ([], fs.map frameEmit) :=
  feedGo_of_valid chunks fs [] [] hv rfl (by simpa using hj)

/-- C1 (amended): for the response decoder — the framed stream — chunking
is invariant: feeding any partition of a valid concatenation of frames
through successive parse calls produces exactly the messages (and final
state) of feeding the whole stream in one call.  (For the command decoder
the claim fails on the startup packet; see the counterexample.) -/
theorem chunkInvariance_resp (fs chunks : List (List Nat)) (hv : ∀ f ∈ fs, ValidFrame f)
    (hj : chunks.flatten = fs.flatten) :
    feedResp chunks = feedResp [fs.flatten] := by
  rw [feedResp_of_valid fs chunks hv hj, feedResp_of_valid fs [fs.flatten] hv (by simp)]

/-- C1 (amended, witness): a ReadyForQuery frame and a BindComplete frame
delivered in eight fragments decode exactly as the single-call stream. -/
theorem chunkInvariance_resp_w :
    feedResp [[0x5a], [0, 0, 0], [5], [0x49], [0x32], [0], [0, 0], [4]] =
      feedResp [[0x5a, 0, 0, 0, 5, 0x49, 0x32, 0, 0, 0, 4]] := by
  have hv : ∀ f ∈ [[0x5a, 0, 0, 0, 5, 0x49], [0x32, 0, 0, 0, 4]], ValidFrame f := by
    intro f hf
    simp only [List.mem_cons, List.not_mem_nil, or_false] at hf
    rcases hf with rfl | rfl
    · exact ⟨0x5a, 5, (.readyForQuery [0x49], 6), rfl, rfl, fun ext => rfl⟩
    · exact ⟨0x32, 4, (.codeOnly 0x32, 5), rfl, rfl, fun ext => rfl⟩
  exact chunkInvariance_resp [[0x5a, 0, 0, 0, 5, 0x49], [0x32, 0, 0, 0, 4]]
    [[0x5a], [0, 0, 0], [5], [0x49], [0x32], [0], [0, 0], [4]] hv rfl

/-- C4 (amended): the raw-bytes accessor invoked during the decode
callback returns exactly the wire bytes of the emitted message (and caches
them); and for the response decoder fed any partition of a valid stream,
the raw bytes attached to the emissions are exactly the frames, so their
concatenation in emission order equals the input stream.  (The accessor is
not valid after the callback unless realized during it; see the
counterexample.) -/
theorem rawBytes_amended :
    (∀ raw : List Nat, getRawData raw ⟨none, true⟩ = .ok (raw, ⟨some raw, true⟩))
    ∧ ∀ (fs chunks : List (List Nat)), (∀ f ∈ fs, ValidFrame f) →
        chunks.flatten = fs.flatten →
        ∃ ems, feedResp chunks = some ([], ems) ∧ ems.map (fun e => e.2) = fs ∧
          (ems.map (fun e => e.2)).flatten = chunks.flatten := by
  constructor
  · intro raw; rfl
  · intro fs chunks hv hj
    have hm : (fs.map frameEmit).map (fun e => e.2) = fs := by
      rw [List.map_map]
      have hc : ((fun e : RespEmit => e.2) ∘ frameEmit) = fun f => f := by
        funext f; rfl
      rw [hc]
      simp
    exact ⟨fs.map frameEmit, feedResp_of_valid fs chunks hv hj, hm, by rw [hm, hj]⟩

/-- C4 (amended, witness): the accessor during the callback, and raw-bytes
fidelity for a fragmented ReadyForQuery frame. -/
theorem rawBytes_amended_w :
    getRawData [0x51, 0, 0, 0, 4] ⟨none, true⟩ =
      .ok ([0x51, 0, 0, 0, 4], ⟨some [0x51, 0, 0, 0, 4], true⟩)
    ∧ ∃ ems, feedResp [[0x5a, 0, 0], [0, 5, 0x49]] = some ([], ems) ∧
        ems.map (fun e => e.2) = [[0x5a, 0, 0, 0, 5, 0x49]] ∧
        (ems.map (fun e => e.2)).flatten = [[0x5a, 0, 0], [0, 5, 0x49]].flatten :=
  ⟨rawBytes_amended.1 [0x51, 0, 0, 0, 4],
   rawBytes_amended.2 [[0x5a, 0, 0, 0, 5, 0x49]] [[0x5a, 0, 0], [0, 5, 0x49]]
     (by
       intro f hf
       simp only [List.mem_cons, List.not_mem_nil, or_false] at hf
       subst hf
       exact ⟨0x5a, 5, (.readyForQuery [0x49], 6), rfl, rfl, fun ext => rfl⟩) rfl⟩
